import Mathlib

/-!
Shallow embedding of `scripts/update_project_status.py`.

The script is a single-pass driver: read a token from the environment,
resolve the target project's id together with the "Status" field id and the
"Done" option id, select issues (explicit numbers from the command line, or
a label scan over closed issues), and for each selected issue look up its
project item on the target project and mutate that item's Status to "Done".

Network I/O is embedded as data: an `Env` record holds the responses the
remote API would return, and running `main` yields the list of requests the
script would have issued (`Action`) together with the lines printed and an
optional fatal message (a `SystemExit` with non-zero exit code).
-/

namespace UpdateProjectStatus

/-- Constant `OWNER` from the script. -/
def OWNER : String := "AlexanderZagaynov"

/-- Constant `REPO` from the script. -/
def REPO : String := "ascenoria"

/-- Constant `PROJECT_NUMBER` from the script. -/
def PROJECT_NUMBER : Int := 2

/-- Constant `STATUS_FIELD_NAME` from the script. -/
def STATUS_FIELD_NAME : String := "Status"

/-- Constant `STATUS_DONE_VALUE` from the script. -/
def STATUS_DONE_VALUE : String := "Done"

/-- One option of a single-select project field, as returned inside the
project-metadata GraphQL response (`options { id name }`).  `name` is
optional because the Python code reads it with `option.get("name")`. -/
structure SelectOption where
  id : String
  name : Option String
deriving DecidableEq, Repr

/-- One node of `project.fields.nodes` in the metadata response.  `name` is
read with `field.get("name")`, hence optional; `options` is read with
`field.get("options", [])`. -/
structure ProjectField where
  id : String
  name : Option String
  options : List SelectOption
deriving DecidableEq, Repr

/-- The `projectV2` object of the metadata response.  A node of `fields.nodes`
may be null or an empty fragment (falsy in Python, skipped by `if field`),
which we model as `none`. -/
structure Project where
  id : String
  fields : List (Option ProjectField)
deriving DecidableEq, Repr

/-- One REST issue record, holding exactly the keys the script reads.
`node_id` is read with `issue.get("node_id")`, hence optional; `pull_request`
records whether the JSON object contains a `"pull_request"` key.  `state` and
`labels` are carried by real responses but never read by the script; they let
us state that no client-side filtering happens on them. -/
structure Issue where
  number : Int
  node_id : Option String
  pull_request : Bool
  state : String
  labels : List String
deriving DecidableEq, Repr

/-- One node of `projectItems.nodes` in the per-issue GraphQL response.
Both ids are read with `.get`, hence optional. -/
structure ProjectItem where
  id : Option String
  projectId : Option String
deriving DecidableEq, Repr

/-- A network request the script can issue.  Each constructor corresponds to
one call site of `_request` / `_graphql`. -/
inductive Action where
  | gqlProjectMetadata : Action
  | restListClosed : Action
  | restGetIssue (number : Int) : Action
  | gqlProjectItems (issueNodeId : String) : Action
  | gqlUpdateStatus (projectId itemId fieldId optionId : String) : Action
deriving DecidableEq, Repr

/-- The world a single run observes: the environment variable, the parsed
command-line issue numbers, and the responses the API would return for each
request the script can make. -/
structure Env where
  token : Option String
  args : List Int
  metadataResp : Option Project
  issueByNumber : Int → Issue
  closedIssues : List Issue
  projectItems : String → List ProjectItem

/-- Result of one run: `fatal` is the `SystemExit` message when the run
terminates with a non-zero exit code (`none` means exit code 0), `actions`
the network requests issued, `output` the lines printed to stdout. -/
structure RunResult where
  fatal : Option String
  actions : List Action
  output : List String
deriving DecidableEq, Repr

/-- Python truthiness of an optional string: `None` and `""` are falsy. -/
def pyTruthy : Option String → Bool
  | none => false
  | some s => !s.isEmpty

/-- `_require_token`: reads `GITHUB_TOKEN`; `if not token` raises
`SystemExit` when the variable is absent or empty. -/
def _require_token (token : Option String) : Except String String :=
  if pyTruthy token then .ok (token.getD "")
  else .error "GITHUB_TOKEN is required to update project status"

/-- The `for field in project["fields"]["nodes"]` loop: the first node that
is truthy and whose `name` equals `STATUS_FIELD_NAME` (the loop breaks on the
first match). -/
def findStatusField : List (Option ProjectField) → Option ProjectField
  | [] => none
  | none :: rest => findStatusField rest
  | some f :: rest =>
      if f.name = some STATUS_FIELD_NAME then some f else findStatusField rest

/-- The inner `for option in field.get("options", [])` loop: it overwrites
`status_done_option` on every match, so the id of the last option named
`STATUS_DONE_VALUE` wins. -/
def lastDoneOption (options : List SelectOption) : Option String :=
  ((options.filter (fun o => o.name = some STATUS_DONE_VALUE)).getLast?).map
    (fun o => o.id)

/-- `_fetch_project_metadata` applied to the `projectV2` object of the
response: fails when the project is null, and when
`not status_field_id or not status_done_option` (Python truthiness, so an
empty-string id also fails).  On success returns
`(project_id, status_field_id, status_done_option)`. -/
def _fetch_project_metadata (resp : Option Project) :
    Except String (String × String × String) :=
  match resp with
  | none => .error s!"Project {PROJECT_NUMBER} for {OWNER} was not found"
  | some project =>
      let status_field_id : Option String :=
        (findStatusField project.fields).map (fun f => f.id)
      let status_done_option : Option String :=
        match findStatusField project.fields with
        | none => none
        | some f => lastDoneOption f.options
      if pyTruthy status_field_id && pyTruthy status_done_option then
        .ok (project.id, (status_field_id.getD ""), (status_done_option.getD ""))
      else .error "Status field or Done option not found on project"

/-- `_closed_codex_done_issues` applied to the REST response list: keeps, in
order, exactly the entries without a `"pull_request"` key. -/
def _closed_codex_done_issues (issues : List Issue) : List Issue :=
  issues.filter (fun issue => !issue.pull_request)

/-- `_issue_project_item_id` applied to the `projectItems.nodes` list of the
response: scans for the first item whose `project.id` equals the target
project id and returns that item's `id` (itself optional: `item.get("id")`).
Returns `none` when no item matches. -/
def _issue_project_item_id (items : List ProjectItem) (project_id : String) :
    Option String :=
  match items with
  | [] => none
  | item :: rest =>
      if item.projectId = some project_id then item.id
      else _issue_project_item_id rest project_id

/-- `_update_status`: issues the single `updateProjectV2ItemFieldValue`
mutation; in the embedding it is the request it sends. -/
def _update_status (project_id item_id field_id status_option_id : String) :
    Action :=
  Action.gqlUpdateStatus project_id item_id field_id status_option_id

/-- `sorted(set(args.issues))`: the distinct issue numbers in ascending
order. -/
def sortedIssueNumbers (args : List Int) : List Int :=
  args.dedup.insertionSort (· ≤ ·)

/-- The issue-selection step of `main`: explicit mode when `args.issues` is
truthy (non-empty), label-scan mode otherwise.  Returns the selected issue
records together with the requests issued to obtain them.

Note: the Python line building the explicit-mode URL template,
`url_template = f"{GITHUB_API}/repos/{OWNER}/{REPO}/issues/{}"`, is a
syntax error (an f-string may not contain an empty `{}` expression), so the
script as committed aborts at parse time.  The subsequent
`url_template.format(number)` call shows the evident intent — one
`GET /issues/{number}` per distinct number — and this definition embeds
that intent. -/
def selectIssues (env : Env) : List Issue × List Action :=
  if env.args.isEmpty then
    (_closed_codex_done_issues env.closedIssues, [Action.restListClosed])
  else
    ((sortedIssueNumbers env.args).map env.issueByNumber,
     (sortedIssueNumbers env.args).map Action.restGetIssue)

/-- The per-issue body of the `for issue in issues` loop in `main`: skip
(with a printed reason) when the node id is falsy or when no project item on
the target project is found, otherwise issue the mutation and print the
success line.  Returns the requests issued and the lines printed for this
issue. -/
def processIssue (env : Env) (project_id status_field_id status_done_option :
    String) (issue : Issue) : List Action × List String :=
  let n := issue.number
  if pyTruthy issue.node_id then
    let nid := issue.node_id.getD ""
    let item_id := _issue_project_item_id (env.projectItems nid) project_id
    if pyTruthy item_id then
      ([Action.gqlProjectItems nid,
        _update_status project_id (item_id.getD "") status_field_id
          status_done_option],
       [s!"- #{n}: status updated to {STATUS_DONE_VALUE}"])
    else
      ([Action.gqlProjectItems nid],
       [s!"- #{n}: not present on project, skipping"])
  else
    ([], [s!"- #{n}: missing node id, skipping"])

/-- The summary line printed before the per-issue loop. -/
def headerLine (k : Nat) : String :=
  s!"Updating {k} issue(s) to Status={STATUS_DONE_VALUE} on project {PROJECT_NUMBER}..."

/-- `main`: token check, metadata resolution, issue selection, then the
sequential per-issue loop.  Fatal `SystemExit`s stop the run at the point
they are raised in the script. -/
def main (env : Env) : RunResult :=
  match _require_token env.token with
  | .error msg => ⟨some msg, [], []⟩
  | .ok _ =>
      match _fetch_project_metadata env.metadataResp with
      | .error msg => ⟨some msg, [Action.gqlProjectMetadata], []⟩
      | .ok (project_id, status_field_id, status_done_option) =>
          let (issues, selActions) := selectIssues env
          let perIssue := issues.map
            (processIssue env project_id status_field_id status_done_option)
          ⟨none,
           Action.gqlProjectMetadata :: selActions ++
             (perIssue.map Prod.fst).flatten,
           headerLine issues.length :: (perIssue.map Prod.snd).flatten⟩

/-- Whether a request is the `updateProjectV2ItemFieldValue` mutation. -/
def isMutation : Action → Bool
  | Action.gqlUpdateStatus _ _ _ _ => true
  | _ => false

/-- A metadata response holding the target project with a "Status"
single-select field carrying a "Done" option. -/
def goodProject : Project :=
  ⟨"P_1", [some ⟨"F_1", some "Status", [⟨"O_done", some "Done"⟩]⟩]⟩

/-- A run where issue #42 (closed, labeled, node id `I_abc`) sits on the
target project as item `PVTI_1`: the happy path of the spec's end-to-end
example. -/
def envHappy : Env where
  token := some "t"
  args := []
  metadataResp := some goodProject
  issueByNumber := fun n => ⟨n, none, false, "closed", []⟩
  closedIssues := [⟨42, some "I_abc", false, "closed", ["codex:done"]⟩]
  projectItems := fun nid =>
    if nid = "I_abc" then [⟨some "PVTI_1", some "P_1"⟩] else []

/-- A run with no token in the environment. -/
def envNoToken : Env where
  token := none
  args := []
  metadataResp := some goodProject
  issueByNumber := fun n => ⟨n, none, false, "closed", []⟩
  closedIssues := []
  projectItems := fun _ => []

/-- A run whose project metadata has no field named "Status". -/
def envNoStatus : Env where
  token := some "t"
  args := []
  metadataResp := some ⟨"P_1", [some ⟨"F_9", some "Priority", []⟩, none]⟩
  issueByNumber := fun n => ⟨n, none, false, "closed", []⟩
  closedIssues := [⟨42, some "I_abc", false, "closed", ["codex:done"]⟩]
  projectItems := fun _ => []

/-- A run where issue #7 is not on the target project while the later issue
#42 is: #7 is skipped, #42 still updated. -/
def envSkip : Env where
  token := some "t"
  args := []
  metadataResp := some goodProject
  issueByNumber := fun n => ⟨n, none, false, "closed", []⟩
  closedIssues := [⟨7, some "I_skip", false, "closed", ["codex:done"]⟩,
                   ⟨42, some "I_abc", false, "closed", ["codex:done"]⟩]
  projectItems := fun nid =>
    if nid = "I_abc" then [⟨some "PVTI_1", some "P_1"⟩] else []

/-- A run in explicit mode whose requested issue #42 is an open, unlabeled
pull request that nevertheless sits on the target project. -/
def envExplicitPR : Env where
  token := some "t"
  args := [42]
  metadataResp := some goodProject
  issueByNumber := fun n =>
    if n = 42 then ⟨42, some "I_pr", true, "open", []⟩
    else ⟨n, none, false, "closed", []⟩
  closedIssues := []
  projectItems := fun nid =>
    if nid = "I_pr" then [⟨some "PVTI_2", some "P_1"⟩] else []

/-! ### Helper lemmas shared by the claim theorems -/

theorem pyTruthy_eq_some (o : Option String) (h : pyTruthy o = true) :
    o = some (o.getD "") := by
  cases o with
  | none => simp [pyTruthy] at h
  | some s => rfl

theorem _issue_project_item_id_mem (items : List ProjectItem)
    (project_id iid : String)
    (h : _issue_project_item_id items project_id = some iid) :
    ∃ item ∈ items, item.projectId = some project_id ∧ item.id = some iid := by
  induction items with
  | nil => simp [_issue_project_item_id] at h
  | cons item rest ih =>
      by_cases hm : item.projectId = some project_id
      · refine ⟨item, by simp, hm, ?_⟩
        simpa [_issue_project_item_id, hm] using h
      · have h' : _issue_project_item_id rest project_id = some iid := by
          simpa [_issue_project_item_id, hm] using h
        obtain ⟨it, hit, hpid, hid⟩ := ih h'
        exact ⟨it, by simp [hit], hpid, hid⟩

theorem _issue_project_item_id_first (pre post : List ProjectItem)
    (item : ProjectItem) (project_id : String)
    (hpre : ∀ x ∈ pre, x.projectId ≠ some project_id)
    (hmatch : item.projectId = some project_id) :
    _issue_project_item_id (pre ++ item :: post) project_id = item.id := by
  induction pre with
  | nil => simp [_issue_project_item_id, hmatch]
  | cons x rest ih =>
      have hx : x.projectId ≠ some project_id := hpre x (by simp)
      have hrest : ∀ y ∈ rest, y.projectId ≠ some project_id :=
        fun y hy => hpre y (by simp [hy])
      simpa [_issue_project_item_id, hx] using ih hrest

theorem selectIssues_no_mutation (env : Env) (a : Action)
    (ha : a ∈ (selectIssues env).2) : isMutation a = false := by
  by_cases he : env.args.isEmpty
  · simp [selectIssues, he] at ha
    simp [ha, isMutation]
  · simp [selectIssues, he] at ha
    obtain ⟨n, _, rfl⟩ := ha
    simp [isMutation]

theorem main_token_err (env : Env) (msg : String)
    (h : _require_token env.token = .error msg) :
    main env = ⟨some msg, [], []⟩ := by
  simp [main, h]

theorem main_meta_err (env : Env) (t msg : String)
    (htok : _require_token env.token = .ok t)
    (hmeta : _fetch_project_metadata env.metadataResp = .error msg) :
    main env = ⟨some msg, [Action.gqlProjectMetadata], []⟩ := by
  simp [main, htok, hmeta]

theorem main_ok (env : Env) (t pid sfid sopt : String)
    (htok : _require_token env.token = .ok t)
    (hmeta : _fetch_project_metadata env.metadataResp = .ok (pid, sfid, sopt)) :
    main env =
      ⟨none,
       Action.gqlProjectMetadata :: (selectIssues env).2 ++
         (((selectIssues env).1.map
             (processIssue env pid sfid sopt)).map Prod.fst).flatten,
       headerLine (selectIssues env).1.length ::
         (((selectIssues env).1.map
             (processIssue env pid sfid sopt)).map Prod.snd).flatten⟩ := by
  simp [main, htok, hmeta]

theorem processIssue_mutation_inv (env : Env)
    (pid sfid sopt p i f o : String) (issue : Issue)
    (h : Action.gqlUpdateStatus p i f o ∈
        (processIssue env pid sfid sopt issue).1) :
    p = pid ∧ f = sfid ∧ o = sopt ∧ i.isEmpty = false ∧
      _issue_project_item_id (env.projectItems (issue.node_id.getD ""))
        pid = some i := by
  by_cases hn : pyTruthy issue.node_id
  · set item_id := _issue_project_item_id
        (env.projectItems (issue.node_id.getD "")) pid with hdef
    by_cases hi : pyTruthy item_id
    · have hsome : item_id = some (item_id.getD "") := pyTruthy_eq_some _ hi
      have hne : (item_id.getD "").isEmpty = false := by
        cases hcase : item_id with
        | none => rw [hcase] at hi; simp [pyTruthy] at hi
        | some s => rw [hcase] at hi; simpa [pyTruthy] using hi
      simp [processIssue, hn, ← hdef, hi, _update_status] at h
      refine ⟨h.1, h.2.2.1, h.2.2.2, ?_, ?_⟩
      · rw [h.2.1]; exact hne
      · rw [h.2.1]; exact hsome
    · simp [processIssue, hn, ← hdef, hi, _update_status] at h
  · simp [processIssue, hn] at h

theorem mem_main_actions_cases (env : Env) (t pid sfid sopt : String)
    (a : Action) (htok : _require_token env.token = .ok t)
    (hmeta : _fetch_project_metadata env.metadataResp = .ok (pid, sfid, sopt))
    (h : a ∈ (main env).actions) :
    a = Action.gqlProjectMetadata ∨ a ∈ (selectIssues env).2 ∨
      ∃ issue ∈ (selectIssues env).1,
        a ∈ (processIssue env pid sfid sopt issue).1 := by
  rw [main_ok env t pid sfid sopt htok hmeta] at h
  rcases List.mem_cons.mp h with h1 | h2
  · exact Or.inl h1
  · rcases List.mem_append.mp h2 with h3 | h4
    · exact Or.inr (Or.inl h3)
    · refine Or.inr (Or.inr ?_)
      rcases List.mem_flatten.mp h4 with ⟨l, hl, hal⟩
      rcases List.mem_map.mp hl with ⟨pair, hp, rfl⟩
      rcases List.mem_map.mp hp with ⟨issue, hiss, rfl⟩
      exact ⟨issue, hiss, hal⟩

theorem sortedIssueNumbers_nodup (l : List Int) :
    (sortedIssueNumbers l).Nodup :=
  ((List.perm_insertionSort _ _).nodup_iff).mpr (List.nodup_dedup l)

theorem sortedIssueNumbers_sorted_le (l : List Int) :
    List.Sorted (· ≤ ·) (sortedIssueNumbers l) :=
  List.sorted_insertionSort _ _

theorem sortedIssueNumbers_sorted_lt (l : List Int) :
    List.Sorted (· < ·) (sortedIssueNumbers l) := by
  have h := (sortedIssueNumbers_sorted_le l).and (sortedIssueNumbers_nodup l)
  exact h.imp (fun hab => lt_of_le_of_ne hab.1 hab.2)

theorem sortedIssueNumbers_toFinset (l : List Int) :
    (sortedIssueNumbers l).toFinset = l.toFinset := by
  have h1 := List.toFinset_eq_of_perm _ _
    (List.perm_insertionSort (· ≤ ·) l.dedup)
  have h2 : l.dedup.toFinset = l.toFinset :=
    List.toFinset.ext (fun x => List.mem_dedup)
  exact h1.trans h2

theorem sortedIssueNumbers_canonical (l₁ l₂ : List Int)
    (h : l₁.toFinset = l₂.toFinset) :
    sortedIssueNumbers l₁ = sortedIssueNumbers l₂ := by
  have hperm : List.Perm (sortedIssueNumbers l₁) (sortedIssueNumbers l₂) :=
    List.perm_of_nodup_nodup_toFinset_eq (sortedIssueNumbers_nodup l₁)
      (sortedIssueNumbers_nodup l₂)
      (by rw [sortedIssueNumbers_toFinset, sortedIssueNumbers_toFinset, h])
  exact List.eq_of_perm_of_sorted hperm (sortedIssueNumbers_sorted_le l₁)
    (sortedIssueNumbers_sorted_le l₂)

/-! ### Claim theorems -/

/-- C1: a status mutation is only ever issued with a project item whose
parent project id equals the project id resolved by the metadata resolver
(together with the resolved field and option ids); items of other projects
are never selected. -/
theorem C1_mutation_targets_resolved_project (env : Env)
    (pid iid fid oid : String)
    (h : Action.gqlUpdateStatus pid iid fid oid ∈ (main env).actions) :
    _fetch_project_metadata env.metadataResp = Except.ok (pid, fid, oid) ∧
      ∃ nid, ∃ item ∈ env.projectItems nid,
        item.projectId = some pid ∧ item.id = some iid := by
  cases htok : _require_token env.token with
  | error msg => rw [main_token_err env msg htok] at h; simp at h
  | ok t =>
      cases hmeta : _fetch_project_metadata env.metadataResp with
      | error msg => rw [main_meta_err env t msg htok hmeta] at h; simp at h
      | ok trip =>
          obtain ⟨p, f, o⟩ := trip
          rcases mem_main_actions_cases env t p f o _ htok hmeta h with
            hc | hc | hc
          · simp at hc
          · have := selectIssues_no_mutation env _ hc
            simp [isMutation] at this
          · obtain ⟨issue, _, hmem⟩ := hc
            obtain ⟨rfl, rfl, rfl, _, hlook⟩ :=
              processIssue_mutation_inv env p f o _ _ _ _ issue hmem
            obtain ⟨item, hin, hpid, hid⟩ :=
              _issue_project_item_id_mem _ _ _ hlook
            exact ⟨rfl, issue.node_id.getD "", item, hin, hpid, hid⟩

theorem C1_witness :
    Action.gqlUpdateStatus "P_1" "PVTI_1" "F_1" "O_done" ∈
        (main envHappy).actions ∧
      (_fetch_project_metadata envHappy.metadataResp =
          Except.ok ("P_1", "F_1", "O_done") ∧
        ∃ nid, ∃ item ∈ envHappy.projectItems nid,
          item.projectId = some "P_1" ∧ item.id = some "PVTI_1") :=
  ⟨by decide,
   C1_mutation_targets_resolved_project envHappy "P_1" "PVTI_1" "F_1"
     "O_done" (by decide)⟩

/-- A run in explicit mode with the duplicated, unordered argument list
`[5, 3, 5]` from the spec's example. -/
def envC2 : Env where
  token := some "t"
  args := [5, 3, 5]
  metadataResp := some goodProject
  issueByNumber := fun n => ⟨n, none, false, "closed", []⟩
  closedIssues := []
  projectItems := fun _ => []

/-- C2: in explicit mode the selector fetches each distinct issue number
exactly once (the fetch requests are the distinct numbers, without
duplicates), in strictly ascending order, and the fetched set is invariant
under reordering and duplication of the command-line numbers. -/
theorem C2_explicit_mode_selection (env : Env) (h : env.args ≠ []) :
    (selectIssues env).2 =
        (sortedIssueNumbers env.args).map Action.restGetIssue ∧
      (selectIssues env).1 =
        (sortedIssueNumbers env.args).map env.issueByNumber ∧
      (sortedIssueNumbers env.args).Nodup ∧
      List.Sorted (· < ·) (sortedIssueNumbers env.args) ∧
      (sortedIssueNumbers env.args).toFinset = env.args.toFinset ∧
      ∀ args₂ : List Int, args₂.toFinset = env.args.toFinset →
        sortedIssueNumbers args₂ = sortedIssueNumbers env.args := by
  have he : env.args.isEmpty = false := by
    cases harg : env.args with
    | nil => exact absurd harg h
    | cons x xs => rfl
  refine ⟨by simp [selectIssues, he], by simp [selectIssues, he],
    sortedIssueNumbers_nodup env.args, sortedIssueNumbers_sorted_lt env.args,
    sortedIssueNumbers_toFinset env.args, ?_⟩
  exact fun args₂ hf => sortedIssueNumbers_canonical args₂ env.args hf

theorem C2_witness :
    (selectIssues envC2).2 =
        (sortedIssueNumbers envC2.args).map Action.restGetIssue ∧
      sortedIssueNumbers ([3, 5, 5, 3] : List Int) =
        sortedIssueNumbers envC2.args ∧
      sortedIssueNumbers envC2.args = [3, 5] := by
  refine ⟨(C2_explicit_mode_selection envC2 (by decide)).1, ?_, by decide⟩
  exact (C2_explicit_mode_selection envC2 (by decide)).2.2.2.2.2
    [3, 5, 5, 3] (by decide)

/-- C3: with the token variable absent or empty the run terminates with the
fatal message before issuing any network request: the action trace is
empty. -/
theorem C3_missing_token_no_requests (env : Env)
    (h : pyTruthy env.token = false) :
    (main env).fatal =
        some "GITHUB_TOKEN is required to update project status" ∧
      (main env).actions = [] ∧ (main env).output = [] := by
  have htok : _require_token env.token =
      .error "GITHUB_TOKEN is required to update project status" := by
    simp [_require_token, h]
  rw [main_token_err env _ htok]
  exact ⟨rfl, rfl, rfl⟩

theorem C3_witness :
    pyTruthy envNoToken.token = false ∧
      (main envNoToken).fatal =
        some "GITHUB_TOKEN is required to update project status" ∧
      (main envNoToken).actions = [] ∧ (main envNoToken).output = [] :=
  ⟨by decide, C3_missing_token_no_requests envNoToken (by decide)⟩

theorem findStatusField_eq_none (fields : List (Option ProjectField))
    (h : ∀ pf : ProjectField, some pf ∈ fields →
      pf.name ≠ some STATUS_FIELD_NAME) :
    findStatusField fields = none := by
  induction fields with
  | nil => rfl
  | cons f rest ih =>
      cases f with
      | none =>
          exact ih (fun pf hpf => h pf (by simp [hpf]))
      | some pf =>
          have hne : ¬pf.name = some STATUS_FIELD_NAME := h pf (by simp)
          simp only [findStatusField, if_neg hne]
          exact ih (fun pf' hpf' => h pf' (by simp [hpf']))

theorem lastDoneOption_eq_none (options : List SelectOption)
    (h : ∀ o ∈ options, o.name ≠ some STATUS_DONE_VALUE) :
    lastDoneOption options = none := by
  have hfil :
      options.filter (fun o => o.name = some STATUS_DONE_VALUE) = [] := by
    rw [List.filter_eq_nil_iff]
    intro o ho
    simpa using h o ho
  simp [lastDoneOption, hfil]

/-- C4: when the project is missing, or no field is named "Status", or the
matched "Status" field has no option named "Done", the run stops with a
fatal error after at most the metadata query: no issue fetch, item lookup or
mutation is issued and nothing is printed. -/
theorem C4_metadata_failure_stops_run (env : Env)
    (h : env.metadataResp = none ∨
      ∃ p, env.metadataResp = some p ∧
        ((∀ pf : ProjectField, some pf ∈ p.fields →
            pf.name ≠ some STATUS_FIELD_NAME) ∨
          ∃ pf, findStatusField p.fields = some pf ∧
            ∀ o ∈ pf.options, o.name ≠ some STATUS_DONE_VALUE)) :
    (main env).fatal.isSome = true ∧
      (∀ a ∈ (main env).actions, a = Action.gqlProjectMetadata) ∧
      (main env).output = [] := by
  have hmeta : ∃ msg,
      _fetch_project_metadata env.metadataResp = .error msg := by
    rcases h with h0 | ⟨p, hp, hcase⟩
    · exact ⟨s!"Project {PROJECT_NUMBER} for {OWNER} was not found",
        by simp [_fetch_project_metadata, h0]⟩
    · rcases hcase with hnofield | ⟨pf, hfind, hnoopt⟩
      · have hf := findStatusField_eq_none p.fields hnofield
        exact ⟨"Status field or Done option not found on project",
          by simp [_fetch_project_metadata, hp, hf, pyTruthy]⟩
      · have hl := lastDoneOption_eq_none pf.options hnoopt
        exact ⟨"Status field or Done option not found on project",
          by simp [_fetch_project_metadata, hp, hfind, hl, pyTruthy]⟩
  obtain ⟨msg, hmeta⟩ := hmeta
  cases htok : _require_token env.token with
  | error m =>
      rw [main_token_err env m htok]
      exact ⟨rfl, by simp, rfl⟩
  | ok t =>
      rw [main_meta_err env t msg htok hmeta]
      exact ⟨rfl, by simp, rfl⟩

theorem C4_witness :
    (main envNoStatus).fatal.isSome = true ∧
      (∀ a ∈ (main envNoStatus).actions, a = Action.gqlProjectMetadata) ∧
      (main envNoStatus).output = [] := by
  refine C4_metadata_failure_stops_run envNoStatus (Or.inr ?_)
  refine ⟨⟨"P_1", [some ⟨"F_9", some "Priority", []⟩, none]⟩, rfl, Or.inl ?_⟩
  intro pf hpf
  rcases (by simpa using hpf : some pf = some
      (⟨"F_9", some "Priority", []⟩ : ProjectField) ∨
      some pf = (none : Option ProjectField)) with h1 | h1
  · obtain rfl := Option.some_inj.mp h1
    decide
  · exact Option.noConfusion h1

/-- C5: an issue whose project-item lookup finds nothing on the target
project (or whose record lacks a node id) is reported with a skip line,
contributes no mutation, and every issue in the selected list still
contributes its report lines to the output: the run goes on and ends with
exit code 0. -/
theorem C5_skip_is_not_fatal (env : Env) (t pid sfid sopt : String)
    (issue : Issue)
    (htok : _require_token env.token = .ok t)
    (hmeta : _fetch_project_metadata env.metadataResp = .ok (pid, sfid, sopt))
    (hmem : issue ∈ (selectIssues env).1)
    (hskip : pyTruthy issue.node_id = false ∨
      pyTruthy (_issue_project_item_id
        (env.projectItems (issue.node_id.getD "")) pid) = false) :
    (main env).fatal = none ∧
      (∀ a ∈ (processIssue env pid sfid sopt issue).1, isMutation a = false) ∧
      (processIssue env pid sfid sopt issue).2 =
        [if pyTruthy issue.node_id then
          s!"- #{issue.number}: not present on project, skipping"
         else s!"- #{issue.number}: missing node id, skipping"] ∧
      (if pyTruthy issue.node_id then
          s!"- #{issue.number}: not present on project, skipping"
        else s!"- #{issue.number}: missing node id, skipping") ∈
        (main env).output ∧
      ∀ i ∈ (selectIssues env).1, ∀ line ∈ (processIssue env pid sfid sopt i).2,
        line ∈ (main env).output := by
  have hfatal : (main env).fatal = none := by
    rw [main_ok env t pid sfid sopt htok hmeta]
  have hproc : (∀ a ∈ (processIssue env pid sfid sopt issue).1,
      isMutation a = false) ∧
      (processIssue env pid sfid sopt issue).2 =
        [if pyTruthy issue.node_id then
          s!"- #{issue.number}: not present on project, skipping"
         else s!"- #{issue.number}: missing node id, skipping"] := by
    by_cases hn : pyTruthy issue.node_id
    · have hitem : pyTruthy (_issue_project_item_id
          (env.projectItems (issue.node_id.getD "")) pid) = false := by
        rcases hskip with hs | hs
        · rw [hn] at hs; exact absurd hs (by simp)
        · exact hs
      constructor
      · intro a ha
        simp [processIssue, hn, hitem] at ha
        simp [ha, isMutation]
      · simp [processIssue, hn, hitem]
    · constructor
      · intro a ha
        simp [processIssue, hn] at ha
      · simp [processIssue, hn]
  have hall : ∀ i ∈ (selectIssues env).1,
      ∀ line ∈ (processIssue env pid sfid sopt i).2,
        line ∈ (main env).output := by
    intro i hi line hline
    rw [main_ok env t pid sfid sopt htok hmeta]
    refine List.mem_cons_of_mem _ (List.mem_flatten.mpr ?_)
    exact ⟨(processIssue env pid sfid sopt i).2,
      List.mem_map.mpr ⟨processIssue env pid sfid sopt i,
        List.mem_map.mpr ⟨i, hi, rfl⟩, rfl⟩, hline⟩
  refine ⟨hfatal, hproc.1, hproc.2, ?_, hall⟩
  have := hall issue hmem
  rw [hproc.2] at this
  exact this _ (by simp)

theorem C5_witness :
    "- #7: not present on project, skipping" ∈ (main envSkip).output ∧
      "- #42: status updated to Done" ∈ (main envSkip).output ∧
      (main envSkip).fatal = none := by
  have h := C5_skip_is_not_fatal envSkip "t" "P_1" "F_1" "O_done"
    ⟨7, some "I_skip", false, "closed", ["codex:done"]⟩ (by rfl) (by rfl)
    (by decide) (Or.inr (by decide))
  refine ⟨?_, ?_, h.1⟩
  · have hline := h.2.2.2.1
    simpa using hline
  · have hsub := h.2.2.2.2 ⟨42, some "I_abc", false, "closed", ["codex:done"]⟩
      (by decide) "- #42: status updated to Done" (by decide)
    exact hsub

/-- C6: the label-scan filter keeps exactly the response entries without a
pull-request marker, preserving the order returned by the API (the result is
a sublist of the response). -/
theorem C6_label_scan_excludes_prs (resp : List Issue) :
    (∀ issue, issue ∈ _closed_codex_done_issues resp ↔
        issue ∈ resp ∧ issue.pull_request = false) ∧
      (_closed_codex_done_issues resp).Sublist resp := by
  constructor
  · intro issue
    simp [_closed_codex_done_issues, List.mem_filter]
  · exact List.filter_sublist resp

/-- C7: over the intent embedding the run exits non-zero (with a message)
exactly when the token is missing or empty, or when project metadata
resolution fails; otherwise, whatever issues were selected and however many
of them were skipped, the exit code is 0.  Transport itself never fails in
this embedding, so the transport-error case of the claim is vacuous.  The
committed script does not satisfy this biconditional: its parse-time
syntax error (see `selectIssues`) makes every invocation exit non-zero,
including runs with a valid token and resolvable metadata. -/
theorem C7_exit_code_characterization (env : Env) :
    (main env).fatal ≠ none ↔
      (pyTruthy env.token = false ∨
        ∃ msg, _fetch_project_metadata env.metadataResp =
          Except.error msg) := by
  constructor
  · intro h
    by_cases ht : pyTruthy env.token
    · have htok : _require_token env.token = .ok (env.token.getD "") := by
        simp [_require_token, ht]
      cases hmeta : _fetch_project_metadata env.metadataResp with
      | error msg => exact Or.inr ⟨msg, rfl⟩
      | ok trip =>
          obtain ⟨p, f, o⟩ := trip
          rw [main_ok env _ p f o htok hmeta] at h
          simp at h
    · exact Or.inl (by simpa using ht)
  · intro h
    rcases h with ht | ⟨msg, hmeta⟩
    · have htok : _require_token env.token =
          .error "GITHUB_TOKEN is required to update project status" := by
        simp [_require_token, ht]
      rw [main_token_err env _ htok]
      simp
    · by_cases ht : pyTruthy env.token
      · have htok : _require_token env.token = .ok (env.token.getD "") := by
          simp [_require_token, ht]
        rw [main_meta_err env _ msg htok hmeta]
        simp
      · have htok : _require_token env.token =
            .error "GITHUB_TOKEN is required to update project status" := by
          simp [_require_token, ht]
        rw [main_token_err env _ htok]
        simp

/-- C8: for a run whose single selected issue has a node id and exactly one
project item under the target project, exactly one mutation is issued, its
arguments are precisely the resolved project id, that item id, the resolved
field id and the resolved option id, and the success line for the issue is
printed. -/
theorem C8_single_issue_updated (env : Env)
    (t pid sfid sopt nid iid : String) (issue : Issue)
    (htok : _require_token env.token = .ok t)
    (hmeta : _fetch_project_metadata env.metadataResp = .ok (pid, sfid, sopt))
    (hsel : (selectIssues env).1 = [issue])
    (hnode : issue.node_id = some nid) (hnid : nid.isEmpty = false)
    (hitems : env.projectItems nid = [⟨some iid, some pid⟩])
    (hiid : iid.isEmpty = false) :
    (main env).actions.countP (fun a => isMutation a) = 1 ∧
      _update_status pid iid sfid sopt ∈ (main env).actions ∧
      s!"- #{issue.number}: status updated to {STATUS_DONE_VALUE}" ∈
        (main env).output := by
  have hproc : processIssue env pid sfid sopt issue =
      ([Action.gqlProjectItems nid,
        Action.gqlUpdateStatus pid iid sfid sopt],
       [s!"- #{issue.number}: status updated to {STATUS_DONE_VALUE}"]) := by
    simp [processIssue, hnode, pyTruthy, hnid, hitems,
      _issue_project_item_id, hiid, _update_status]
  have hselcount : (selectIssues env).2.countP (fun a => isMutation a) = 0 :=
    List.countP_eq_zero.mpr
      (fun a ha => by simp [selectIssues_no_mutation env a ha])
  rw [main_ok env t pid sfid sopt htok hmeta, hsel]
  refine ⟨?_, ?_, ?_⟩
  · simp [List.countP_cons, List.countP_append, hselcount, hproc, isMutation]
    intro a ha
    exact selectIssues_no_mutation env a ha
  · simp [hproc, _update_status]
  · simp [hproc]

theorem C8_witness :
    (main envHappy).actions.countP (fun a => isMutation a) = 1 ∧
      _update_status "P_1" "PVTI_1" "F_1" "O_done" ∈ (main envHappy).actions ∧
      s!"- #{(42 : Int)}: status updated to {STATUS_DONE_VALUE}" ∈
        (main envHappy).output :=
  C8_single_issue_updated envHappy "t" "P_1" "F_1" "O_done" "I_abc" "PVTI_1"
    ⟨42, some "I_abc", false, "closed", ["codex:done"]⟩
    (by rfl) (by rfl) (by decide) rfl (by decide) (by decide) (by decide)

/-- C9: explicit mode applies no filtering at all: an issue requested by
number is fetched and processed even when it is open, carries no label, and
is in fact a pull request; if a matching project item exists it is still
mutated to Done.  The pull-request filter only exists in label-scan mode. -/
theorem C9_explicit_mode_unfiltered (env : Env)
    (t pid sfid sopt nid iid : String) (n : Int)
    (htok : _require_token env.token = .ok t)
    (hmeta : _fetch_project_metadata env.metadataResp = .ok (pid, sfid, sopt))
    (hn : n ∈ env.args)
    (hpr : (env.issueByNumber n).pull_request = true)
    (hstate : (env.issueByNumber n).state = "open")
    (hlabels : (env.issueByNumber n).labels = [])
    (hnode : (env.issueByNumber n).node_id = some nid)
    (hnid : nid.isEmpty = false)
    (hitem : _issue_project_item_id (env.projectItems nid) pid = some iid)
    (hiid : iid.isEmpty = false) :
    Action.restGetIssue n ∈ (main env).actions ∧
      env.issueByNumber n ∈ (selectIssues env).1 ∧
      _update_status pid iid sfid sopt ∈ (main env).actions := by
  have hne : env.args ≠ [] := List.ne_nil_of_mem hn
  have hargs : env.args.isEmpty = false := by
    cases harg : env.args with
    | nil => exact absurd harg hne
    | cons x xs => rfl
  have hmemsorted : n ∈ sortedIssueNumbers env.args := by
    have hd : n ∈ env.args.dedup := List.mem_dedup.mpr hn
    exact ((List.perm_insertionSort (· ≤ ·) env.args.dedup).mem_iff).mpr hd
  have hsel1 : (selectIssues env).1 =
      (sortedIssueNumbers env.args).map env.issueByNumber := by
    simp [selectIssues, hargs]
  have hsel2 : (selectIssues env).2 =
      (sortedIssueNumbers env.args).map Action.restGetIssue := by
    simp [selectIssues, hargs]
  have hmem1 : env.issueByNumber n ∈ (selectIssues env).1 := by
    rw [hsel1]
    exact List.mem_map.mpr ⟨n, hmemsorted, rfl⟩
  have hproc : processIssue env pid sfid sopt (env.issueByNumber n) =
      ([Action.gqlProjectItems nid,
        Action.gqlUpdateStatus pid iid sfid sopt],
       [s!"- #{(env.issueByNumber n).number}: status updated to {STATUS_DONE_VALUE}"]) := by
    simp [processIssue, hnode, pyTruthy, hnid, hitem, hiid, _update_status]
  rw [main_ok env t pid sfid sopt htok hmeta]
  refine ⟨?_, hmem1, ?_⟩
  · refine List.mem_cons_of_mem _ (List.mem_append.mpr (Or.inl ?_))
    rw [hsel2]
    exact List.mem_map.mpr ⟨n, hmemsorted, rfl⟩
  · refine List.mem_cons_of_mem _ (List.mem_append.mpr (Or.inr ?_))
    refine List.mem_flatten.mpr ?_
    refine ⟨(processIssue env pid sfid sopt (env.issueByNumber n)).1,
      List.mem_map.mpr ⟨processIssue env pid sfid sopt (env.issueByNumber n),
        List.mem_map.mpr ⟨env.issueByNumber n, hmem1, rfl⟩, rfl⟩, ?_⟩
    rw [hproc]
    simp [_update_status]

theorem C9_witness :
    Action.restGetIssue 42 ∈ (main envExplicitPR).actions ∧
      envExplicitPR.issueByNumber 42 ∈ (selectIssues envExplicitPR).1 ∧
      _update_status "P_1" "PVTI_2" "F_1" "O_done" ∈
        (main envExplicitPR).actions :=
  C9_explicit_mode_unfiltered envExplicitPR "t" "P_1" "F_1" "O_done" "I_pr"
    "PVTI_2" 42 (by rfl) (by rfl) (by decide) (by decide) (by decide)
    (by decide) (by decide) (by decide) (by decide) (by decide)

/-- C10: when several of an issue's project items belong to the target
project, the locator returns the id of the first such item in the order the
API returned them, and the per-issue step issues at most one mutation. -/
theorem C10_first_item_at_most_one_mutation (env : Env)
    (pre post : List ProjectItem) (item : ProjectItem)
    (pid sfid sopt : String) (issue : Issue)
    (hpre : ∀ x ∈ pre, x.projectId ≠ some pid)
    (hmatch : item.projectId = some pid) :
    _issue_project_item_id (pre ++ item :: post) pid = item.id ∧
      (processIssue env pid sfid sopt issue).1.countP
        (fun a => isMutation a) ≤ 1 := by
  refine ⟨_issue_project_item_id_first pre post item pid hpre hmatch, ?_⟩
  by_cases hn : pyTruthy issue.node_id
  · by_cases hi : pyTruthy (_issue_project_item_id
        (env.projectItems (issue.node_id.getD "")) pid)
    · simp [processIssue, hn, hi, _update_status, List.countP_cons,
        isMutation]
    · simp [processIssue, hn, hi, List.countP_cons, isMutation]
  · simp [processIssue, hn]

theorem C10_witness :
    _issue_project_item_id
        ([⟨some "X", some "P_9"⟩] ++
          (⟨some "PVTI_1", some "P_1"⟩ : ProjectItem) ::
            [⟨some "PVTI_3", some "P_1"⟩]) "P_1" =
        (⟨some "PVTI_1", some "P_1"⟩ : ProjectItem).id ∧
      (processIssue envHappy "P_1" "F_1" "O_done"
        ⟨42, some "I_abc", false, "closed", ["codex:done"]⟩).1.countP
        (fun a => isMutation a) ≤ 1 :=
  C10_first_item_at_most_one_mutation envHappy
    [⟨some "X", some "P_9"⟩] [⟨some "PVTI_3", some "P_1"⟩]
    ⟨some "PVTI_1", some "P_1"⟩ "P_1" "F_1" "O_done"
    ⟨42, some "I_abc", false, "closed", ["codex:done"]⟩
    (by decide) (by decide)

end UpdateProjectStatus
